import Mathlib

/-!
Verification of the chaos4 integration engine and section extractor.

The Python source (`chaos4/integrators/solver.py`, `chaos4/viz/plotting.py`)
is shallowly embedded here: a numpy 4-vector state becomes `Fin 4 → α`,
float arithmetic becomes exact field arithmetic (generic over a
`LinearOrderedField`, instantiated at `ℚ` where everything is computable and
at `ℝ` where the Forest–Ruth constant `θ = 1/(2 − 2^(1/3))` forces
irrational numbers), and numpy's in-place slice assignments are tracked by
explicit "run" functions that return both the function's result and the
contents of the caller's array after the call.
-/

namespace Chaos4

/-- A numpy state vector `[x, v, a, j]` of `solver.py`: exactly 4 components. -/
abbrev State (α : Type) : Type := Fin 4 → α

/-- The user-supplied snap function `f(x, v, a, j, t)` (`snap_func` in `Solver`). -/
abbrev SnapFunction (α : Type) : Type := α → α → α → α → α → α

section GenericField

variable {α : Type} [LinearOrderedField α]

/-- `Solver._state_derivative(y, t)`: unpacks `x1, x2, x3, x4 = y` and returns
`np.array([x2, x3, x4, snap_func(x1, x2, x3, x4, t)])`. -/
def state_derivative (f : SnapFunction α) (y : State α) (t : α) : State α :=
  ![y 1, y 2, y 3, f (y 0) (y 1) (y 2) (y 3) t]

/-- `Solver.rk4_step(y, t, dt)`: the classical four-stage Runge–Kutta update,
with all numpy vector arithmetic (`y + k1 * dt / 2` etc.) written
component-wise exactly as the elementwise float operations of the source. -/
def rk4_step (f : SnapFunction α) (y : State α) (t dt : α) : State α :=
  let k1 := state_derivative f y t
  let k2 := state_derivative f (fun i => y i + k1 i * dt / 2) (t + dt / 2)
  let k3 := state_derivative f (fun i => y i + k2 i * dt / 2) (t + dt / 2)
  let k4 := state_derivative f (fun i => y i + k3 i * dt) (t + dt)
  fun i => y i + dt / 6 * (k1 i + 2 * k2 i + 2 * k3 i + k4 i)

/-- The in-place position drift `y[0:3] += c * y[1:4]` of
`Solver._forest_ruth_substep` (and of the final half-drift of
`Solver.symplectic_step`): numpy materialises the right-hand side
`c * y[1:4]` into a fresh buffer before the in-place add, so the three
position components are updated simultaneously from the old values. -/
def posDrift (y : State α) (c : α) : State α :=
  ![y 0 + c * y 1, y 1 + c * y 2, y 2 + c * y 3, y 3]

/-- The in-place momentum kick `y[3] += d * snap_func(y[0], y[1], y[2], y[3], t)`
of `Solver._forest_ruth_substep`, applied to the drifted values. -/
def snapKick (f : SnapFunction α) (y : State α) (d t : α) : State α :=
  ![y 0, y 1, y 2, y 3 + d * f (y 0) (y 1) (y 2) (y 3) t]

/-- `Solver._forest_ruth_substep(y, t, dt_pos, dt_vel)`: the position drift
`y[0:3] += dt_pos * y[1:4]` followed by the kick
`y[3] += dt_vel * snap_func(y[0], y[1], y[2], y[3], t)` on the drifted
values. -/
def forest_ruth_substep (f : SnapFunction α) (y : State α) (t dt_pos dt_vel : α) :
    State α :=
  snapKick f (posDrift y dt_pos) dt_vel t

/-- Python/numpy indexing of a 4-element vector: indices `0..3` address the
components directly, `-4..-1` wrap around (`s[-1]` is the last component), and
any other index raises IndexError, modelled as `none`. -/
def pyIndex (i : ℤ) : Option (Fin 4) :=
  if h : 0 ≤ i ∧ i < 4 then some ⟨i.toNat, by omega⟩
  else if h2 : -4 ≤ i ∧ i < 0 then some ⟨(i + 4).toNat, by omega⟩
  else none

/-- The interpolated crossing point of `Visualizer.poincare_section`:
`t = (crossing_val - s1[k]) / (s2[k] - s1[k])` and `point = s1 + t * (s2 - s1)`
applied component-wise to all 4 components. -/
def crossingPoint (s1 s2 : State α) (k : Fin 4) (c : α) : State α :=
  let t := (c - s1 k) / (s2 k - s1 k)
  fun i => s1 i + t * (s2 i - s1 i)

/-- The loop of `Visualizer.poincare_section` over consecutive state pairs
`(s1, s2) = (states[i], states[i+1])`: append the interpolated point when
`(s1[k] - crossing_val) * (s2[k] - crossing_val) < 0` and
`direction * (s2[k] - s1[k]) > 0`. -/
def sectionScan (k : Fin 4) (c dir : α) (states : List (State α)) : List (State α) :=
  (states.zip states.tail).filterMap fun p =>
    if (p.1 k - c) * (p.2 k - c) < 0 ∧ dir * (p.2 k - p.1 k) > 0 then
      some (crossingPoint p.1 p.2 k c)
    else none

/-- `Visualizer.poincare_section(states, plane_idx, crossing_val, direction)`.
With fewer than 2 states the loop body never runs and an empty array is
returned without `plane_idx` ever being used; otherwise the first access
`s1[plane_idx]` resolves by Python indexing rules, raising IndexError
(`none`) for an index outside `-4..3`. -/
def poincare_section (states : List (State α)) (plane_idx : ℤ) (c dir : α) :
    Option (List (State α)) :=
  if states.length < 2 then some []
  else (pyIndex plane_idx).map fun k => sectionScan k c dir states

end GenericField

/-- The Forest-Ruth calibration coefficient of `Solver.symplectic_step`:
`theta = 1.0 / (2.0 - 2.0**(1.0/3.0))`. -/
noncomputable def theta : ℝ := 1 / (2 - (2 : ℝ) ^ ((1 : ℝ) / 3))

/-- `Solver.symplectic_step(y, t, dt)`: three Forest-Ruth sub-steps followed
by the final position-only half-drift `y[0:3] += (theta * dt / 2.0) * y[1:4]`. -/
noncomputable def symplectic_step (f : SnapFunction ℝ) (y : State ℝ) (t dt : ℝ) :
    State ℝ :=
  let y1 := forest_ruth_substep f y t (theta * dt / 2) (theta * dt)
  let y2 := forest_ruth_substep f y1 (t + theta * dt)
    ((1 - theta) * dt / 2) ((1 - 2 * theta) * dt)
  let y3 := forest_ruth_substep f y2 (t + (1 - theta) * dt)
    ((1 - theta) * dt / 2) (theta * dt)
  posDrift y3 (theta * dt / 2)

/-- The symplectic step exactly as the specification words it: with
`θ = 1/(2 − 2^(1/3))`, three sub-steps, each a position drift followed by one
snap kick, with drift/kick coefficients `(θ·dt/2, θ·dt)`, then
`((1−θ)·dt/2, (1−2θ)·dt)`, then `((1−θ)·dt/2, θ·dt)`, followed by a final
position-only half-drift with coefficient `θ·dt/2`. -/
noncomputable def symplectic_step_described (f : SnapFunction ℝ) (y : State ℝ)
    (t dt : ℝ) : State ℝ :=
  let th : ℝ := 1 / (2 - (2 : ℝ) ^ ((1 : ℝ) / 3))
  let y1 := snapKick f (posDrift y (th * dt / 2)) (th * dt) t
  let y2 := snapKick f (posDrift y1 ((1 - th) * dt / 2)) ((1 - 2 * th) * dt)
    (t + th * dt)
  let y3 := snapKick f (posDrift y2 ((1 - th) * dt / 2)) (th * dt)
    (t + (1 - th) * dt)
  posDrift y3 (th * dt / 2)

/-- Observable behaviour of one `rk4_step` call on the caller's array: the
pair (returned value, contents of the argument array after the call). The
body of `rk4_step` performs no in-place writes — every numpy expression in it
(`k1 * dt / 2`, `y + ...`, the weighted sum) allocates a fresh array — so the
argument keeps its value and the result is a freshly computed array. -/
noncomputable def rk4_step_run (f : SnapFunction ℝ) (y : State ℝ) (t dt : ℝ) :
    State ℝ × State ℝ :=
  (rk4_step f y t dt, y)

/-- Observable behaviour of one `symplectic_step` call on the caller's array:
the pair (returned value, contents of the argument array after the call).
`_forest_ruth_substep` updates its argument in place (`y[0:3] += ...`,
`y[3] += ...`) and returns that same object, and the final
`y[0:3] += (theta * dt / 2.0) * y[1:4]` also writes through the caller's
buffer, so after the call the argument array holds the returned state. -/
noncomputable def symplectic_step_run (f : SnapFunction ℝ) (y : State ℝ)
    (t dt : ℝ) : State ℝ × State ℝ :=
  (symplectic_step f y t dt, symplectic_step f y t dt)

/-- Length of `np.arange(t_start, t_end, dt)` for `dt ≠ 0`: numpy produces
`ceil((stop - start) / step)` evenly spaced values when that quotient is
positive, and an empty array otherwise (step pointing away from the stop). -/
noncomputable def arangeLen (s e d : ℝ) : ℕ :=
  if 0 < (e - s) / d then ⌈(e - s) / d⌉₊ else 0

/-- `t_values = np.arange(t_start, t_end, dt)`: the times `t_start + i * dt`. -/
noncomputable def t_values (s e d : ℝ) : List ℝ :=
  (List.range (arangeLen s e d)).map fun i : ℕ => s + (i : ℝ) * d

/-- The dispatch `step_func = self.rk4_step if method == 'rk4' else
self.symplectic_step` of `Solver.solve`: any method string other than
`"rk4"` silently selects the symplectic algorithm. -/
noncomputable def stepFunc (f : SnapFunction ℝ) (method : String) (d : ℝ) :
    State ℝ → ℝ → State ℝ :=
  if method = "rk4" then fun y t => rk4_step f y t d
  else fun y t => symplectic_step f y t d

/-- The loop of `Solver.solve`:
`for i in range(n_steps): states[i] = y; y = step_func(y, t_values[i], dt)`.
`states[i] = y` copies the current values of `y` into row `i` of the `states`
matrix, so each recorded row is a value snapshot of the pre-step state,
unaffected by the later (possibly in-place) updates of `y`. -/
def solveLoop (step : State ℝ → ℝ → State ℝ) : State ℝ → List ℝ → List (State ℝ)
  | _, [] => []
  | y, tv :: tvs => y :: solveLoop step (step y tv) tvs

/-- `Solver.solve(y0, (t_start, t_end), dt, method)`, returning the pair
`(t_values, states)`. Faithful for `dt ≠ 0`; `np.arange` raises
ZeroDivisionError when `dt = 0`, a case never stated about below. -/
noncomputable def solve (f : SnapFunction ℝ) (y0 : State ℝ) (ts te d : ℝ)
    (method : String) : List ℝ × List (State ℝ) :=
  (t_values ts te d, solveLoop (stepFunc f method d) y0 (t_values ts te d))

/-- Contents of the caller's `y0` buffer after `solve` returns: the first
statement `y = np.array(y0, dtype=float)` copies the initial state into a
fresh array, and every later write of the run goes to that copy or to the
`states` matrix, never to the caller's `y0`. -/
def solve_y0_after (y0 : State ℝ) : State ℝ := y0

end Chaos4

namespace Chaos4

section ApplyLemmas

variable {α : Type} [LinearOrderedField α]

theorem posDrift_apply_zero (y : State α) (c : α) :
    posDrift y c 0 = y 0 + c * y 1 := rfl

theorem posDrift_apply_one (y : State α) (c : α) :
    posDrift y c 1 = y 1 + c * y 2 := rfl

theorem posDrift_apply_two (y : State α) (c : α) :
    posDrift y c 2 = y 2 + c * y 3 := rfl

theorem posDrift_apply_three (y : State α) (c : α) :
    posDrift y c 3 = y 3 := rfl

theorem snapKick_apply_zero (f : SnapFunction α) (y : State α) (d t : α) :
    snapKick f y d t 0 = y 0 := rfl

theorem snapKick_apply_one (f : SnapFunction α) (y : State α) (d t : α) :
    snapKick f y d t 1 = y 1 := rfl

theorem snapKick_apply_two (f : SnapFunction α) (y : State α) (d t : α) :
    snapKick f y d t 2 = y 2 := rfl

theorem snapKick_apply_three (f : SnapFunction α) (y : State α) (d t : α) :
    snapKick f y d t 3 = y 3 + d * f (y 0) (y 1) (y 2) (y 3) t := rfl

end ApplyLemmas

/-- Claim C1: the vector-field reduction `Solver._state_derivative` maps the
state `[x, v, a, j]` at time `t` to exactly `[v, a, j, snap(x, v, a, j, t)]`:
the first three output components copy the input's last three components
unchanged, and the fourth is the snap function evaluated at `(x, v, a, j, t)`. -/
theorem state_derivative_reduction {α : Type} [LinearOrderedField α]
    (f : SnapFunction α) (x v a j t : α) :
    state_derivative f ![x, v, a, j] t = ![v, a, j, f x v a j t] := by
  funext i
  fin_cases i <;>
    simp [state_derivative, Matrix.cons_val_zero, Matrix.cons_val_one,
      Matrix.cons_val_two, Matrix.cons_val_three, Matrix.head_cons,
      Matrix.vecTail, Matrix.vecHead]

/-- Claim C2: `Solver.rk4_step` returns
`y + (dt/6) * (k1 + 2*k2 + 2*k3 + k4)` with `k1` the vector field at `(y, t)`,
`k2` at `(y + k1*dt/2, t + dt/2)`, `k3` at `(y + k2*dt/2, t + dt/2)` and
`k4` at `(y + k3*dt, t + dt)`. -/
theorem rk4_step_classical {α : Type} [LinearOrderedField α]
    (f : SnapFunction α) (y : State α) (t dt : α) :
    rk4_step f y t dt =
      (let k1 := state_derivative f y t
       let k2 := state_derivative f (y + (dt / 2) • k1) (t + dt / 2)
       let k3 := state_derivative f (y + (dt / 2) • k2) (t + dt / 2)
       let k4 := state_derivative f (y + dt • k3) (t + dt)
       y + (dt / 6) • (k1 + (2 : α) • k2 + (2 : α) • k3 + k4)) := by
  have h1 : (fun i => y i + state_derivative f y t i * dt / 2) =
      y + (dt / 2) • state_derivative f y t := by
    funext i; simp [Pi.add_apply, Pi.smul_apply, smul_eq_mul]; ring
  funext i
  simp only [rk4_step, h1, Pi.add_apply, Pi.smul_apply, smul_eq_mul]
  have h2 : (fun i => y i + state_derivative f (y + (dt / 2) • state_derivative f y t)
      (t + dt / 2) i * dt / 2) =
      y + (dt / 2) • state_derivative f (y + (dt / 2) • state_derivative f y t)
        (t + dt / 2) := by
    funext i; simp [Pi.add_apply, Pi.smul_apply, smul_eq_mul]; ring
  rw [h2]
  have h3 : (fun i => y i + state_derivative f
      (y + (dt / 2) • state_derivative f (y + (dt / 2) • state_derivative f y t)
        (t + dt / 2)) (t + dt / 2) i * dt) =
      y + dt • state_derivative f
        (y + (dt / 2) • state_derivative f (y + (dt / 2) • state_derivative f y t)
          (t + dt / 2)) (t + dt / 2) := by
    funext i; simp [Pi.add_apply, Pi.smul_apply, smul_eq_mul]; ring
  rw [h3]

/-- Claim C3: `Solver.symplectic_step` computes, with `θ = 1/(2 − 2^(1/3))`,
exactly three sub-steps, each a position drift of the first three components
(`y[0:3] += c * y[1:4]`) followed by one snap-function kick to the fourth
component (`y[3] += d * snap(y, t')`), with drift/kick coefficients `(c, d)`
equal to `(θ·dt/2, θ·dt)`, then `((1−θ)·dt/2, (1−2θ)·dt)`, then
`((1−θ)·dt/2, θ·dt)`, followed by a final position-only half-drift
`y[0:3] += (θ·dt/2) * y[1:4]`. -/
theorem symplectic_step_forest_ruth (f : SnapFunction ℝ) (y : State ℝ) (t dt : ℝ) :
    symplectic_step f y t dt = symplectic_step_described f y t dt :=
  rfl

/-- Claim C9 fails as stated: the symplectic step does not leave its input
unchanged. With the zero snap function, input state `[0, 0, 0, 1]`, time `0`
and step `1`, the caller's array holds acceleration component `1 ≠ 0` after
the call (the in-place drifts have modified it). -/
theorem symplectic_step_mutates_input :
    (symplectic_step_run (fun _ _ _ _ _ => (0 : ℝ)) ![0, 0, 0, 1] 0 1).2 ≠
      ![0, 0, 0, 1] := by
  intro h
  have hc := congrFun h 2
  simp only [symplectic_step_run, symplectic_step, forest_ruth_substep,
    posDrift_apply_zero, posDrift_apply_one, posDrift_apply_two,
    posDrift_apply_three, snapKick_apply_zero, snapKick_apply_one,
    snapKick_apply_two, snapKick_apply_three, Matrix.cons_val_zero,
    Matrix.cons_val_one, Matrix.cons_val_two, Matrix.cons_val_three,
    Matrix.head_cons, Matrix.tail_cons, mul_zero, add_zero, zero_add,
    mul_one] at hc
  ring_nf at hc
  norm_num at hc

/-- Claim C9 (amended): both stepping algorithms are deterministic;
`rk4_step` is side-effect-free on its input (the caller's array is unchanged
after the call and the result is a freshly computed State), while
`symplectic_step` updates its input in place: after the call the caller's
array holds the returned state, not its original contents. -/
theorem step_effects_on_inputs (f : SnapFunction ℝ) (y : State ℝ) (t dt : ℝ) :
    (rk4_step_run f y t dt).2 = y ∧
    (rk4_step_run f y t dt).1 = rk4_step f y t dt ∧
    (symplectic_step_run f y t dt).2 = (symplectic_step_run f y t dt).1 :=
  ⟨rfl, rfl, rfl⟩

theorem solveLoop_length (step : State ℝ → ℝ → State ℝ) (y : State ℝ)
    (tvs : List ℝ) : (solveLoop step y tvs).length = tvs.length := by
  induction tvs generalizing y with
  | nil => rfl
  | cons tv tvs ih => simp [solveLoop, ih]

theorem solveLoop_getElem? (step : State ℝ → ℝ → State ℝ) (tvs : List ℝ)
    (y : State ℝ) (i : ℕ) :
    (solveLoop step y tvs)[i]? =
      if i < tvs.length then some ((tvs.take i).foldl step y) else none := by
  induction tvs generalizing y i with
  | nil => simp [solveLoop]
  | cons tv tvs ih =>
    cases i with
    | zero => simp [solveLoop]
    | succ n =>
      simp [solveLoop, ih (step y tv) n, Nat.succ_lt_succ_iff]

theorem arangeLen_of_pos (s e d : ℝ) (hd : 0 < d) (hlt : s < e) :
    arangeLen s e d = ⌈(e - s) / d⌉₊ := by
  rw [arangeLen, if_pos (div_pos (sub_pos.mpr hlt) hd)]

theorem t_values_length (s e d : ℝ) :
    (t_values s e d).length = arangeLen s e d := by
  rw [t_values, List.length_map, List.length_range]

theorem t_values_getElem? (s e d : ℝ) (i : ℕ) :
    (t_values s e d)[i]? =
      if i < arangeLen s e d then some (s + (i : ℝ) * d) else none := by
  rw [t_values, List.getElem?_map]
  by_cases h : i < arangeLen s e d
  · rw [List.getElem?_range h, if_pos h]
    rfl
  · rw [if_neg h, List.getElem?_eq_none]
    · rfl
    · simpa using Nat.le_of_not_lt h

/-- Claim C4 fails as stated: the recorded entry count is the ceiling of
`(end − start)/dt`, not the floor. For time span `(0, 1)` and `dt = 3/10`
the code records the 4 times `0, 0.3, 0.6, 0.9`, while
`⌊(1 − 0)/(3/10)⌋ = 3`. -/
theorem solve_entry_count_not_floor :
    ((solve (fun _ _ _ _ _ => (0 : ℝ)) ![0, 0, 0, 0] 0 1 (3 / 10) "rk4").1).length ≠
      ⌊((1 : ℝ) - 0) / (3 / 10)⌋₊ := by
  have hq : ((1 : ℝ) - 0) / (3 / 10) = 10 / 3 := by norm_num
  have hlen : ((solve (fun _ _ _ _ _ => (0 : ℝ)) ![0, 0, 0, 0] 0 1 (3 / 10) "rk4").1).length
      = ⌈(10 / 3 : ℝ)⌉₊ := by
    rw [show (solve (fun _ _ _ _ _ => (0 : ℝ)) ![0, 0, 0, 0] 0 1 (3 / 10) "rk4").1 =
      t_values 0 1 (3 / 10) from rfl, t_values_length,
      arangeLen_of_pos 0 1 (3 / 10) (by norm_num) (by norm_num), hq]
  have hceil : ⌈(10 / 3 : ℝ)⌉₊ = 4 := by
    rw [Nat.ceil_eq_iff (by norm_num)]
    constructor <;> norm_num
  have hfloor : ⌊((1 : ℝ) - 0) / (3 / 10)⌋₊ = 3 := by
    rw [hq, Nat.floor_eq_iff (by norm_num)]
    constructor <;> norm_num
  rw [hlen, hceil, hfloor]
  norm_num

/-- Claim C4 (amended): for `end > start` and `dt > 0`, `solve` produces a
trajectory with exactly `⌈(end − start)/dt⌉` entries — the claim's
`floor((end − start)/dt)` holds only when `dt` divides `end − start` exactly,
and is one short otherwise. Entry `i` records time `start + i*dt` (so times
increase by exactly `dt` and every recorded time, in particular the last one,
is strictly before `end`) together with the state before the i-th step:
the initial state followed by the first `i` steps applied in order. -/
theorem solve_trajectory_shape (f : SnapFunction ℝ) (y0 : State ℝ)
    (ts te d : ℝ) (method : String) (hd : 0 < d) (hlt : ts < te) :
    ((solve f y0 ts te d method).1.length = ⌈(te - ts) / d⌉₊) ∧
    ((solve f y0 ts te d method).2.length = ⌈(te - ts) / d⌉₊) ∧
    (∀ i : ℕ, (solve f y0 ts te d method).1[i]? =
      if i < ⌈(te - ts) / d⌉₊ then some (ts + (i : ℝ) * d) else none) ∧
    (∀ t ∈ (solve f y0 ts te d method).1, t < te) ∧
    (∀ i : ℕ, (solve f y0 ts te d method).2[i]? =
      if i < ⌈(te - ts) / d⌉₊ then
        some ((((solve f y0 ts te d method).1).take i).foldl (stepFunc f method d) y0)
      else none) := by
  have hn := arangeLen_of_pos ts te d hd hlt
  refine ⟨?_, ?_, ?_, ?_, ?_⟩
  · rw [show (solve f y0 ts te d method).1 = t_values ts te d from rfl,
      t_values_length, hn]
  · rw [show (solve f y0 ts te d method).2 =
      solveLoop (stepFunc f method d) y0 (t_values ts te d) from rfl,
      solveLoop_length, t_values_length, hn]
  · intro i
    rw [show (solve f y0 ts te d method).1 = t_values ts te d from rfl,
      t_values_getElem?, hn]
  · intro t ht
    rcases List.mem_iff_getElem?.mp ht with ⟨i, hi⟩
    rw [show (solve f y0 ts te d method).1 = t_values ts te d from rfl,
      t_values_getElem?, hn] at hi
    by_cases hlt2 : i < ⌈(te - ts) / d⌉₊
    · rw [if_pos hlt2] at hi
      have hi2 : t = ts + (i : ℝ) * d := by
        injection hi with h
        exact h.symm
      have : (i : ℝ) < (te - ts) / d := Nat.lt_ceil.mp hlt2
      have hmul : (i : ℝ) * d < te - ts := by
        rw [lt_div_iff₀ hd] at this
        exact this
      rw [hi2]
      linarith
    · rw [if_neg hlt2] at hi
      exact absurd hi (by simp)
  · intro i
    rw [show (solve f y0 ts te d method).2 =
      solveLoop (stepFunc f method d) y0 (t_values ts te d) from rfl,
      solveLoop_getElem?, t_values_length, hn]
    rfl

/-- Claim C6 is contradicted by the code: `Solver.solve` performs no
parameter validation. Any method string other than `"rk4"` — here
`"euler"` — silently selects the symplectic algorithm and returns a
trajectory identical to the `"symplectic"` run, and a negative `dt` with a
forward time span silently yields an empty trajectory; no InvalidParameter
condition exists anywhere in the code. -/
theorem solve_no_parameter_validation :
    (∀ (f : SnapFunction ℝ) (y0 : State ℝ) (ts te d : ℝ),
      solve f y0 ts te d "euler" = solve f y0 ts te d "symplectic") ∧
    solve (fun _ _ _ _ _ => (0 : ℝ)) ![0, 0, 0, 0] 0 1 (-1) "rk4" = ([], []) := by
  constructor
  · intro f y0 ts te d
    rfl
  · have h0 : arangeLen 0 1 (-1) = 0 := by
      rw [arangeLen, if_neg]
      norm_num
    have ht : t_values 0 1 (-1) = [] := by
      rw [t_values, h0]
      rfl
    rw [solve, ht]
    rfl

/-- Claim C7 is contradicted by the code: `Solver.solve` contains no
finiteness check and no error channel at all — for every snap function and
every parameter choice it unconditionally returns a complete state history,
one recorded state per time value, never inspecting the produced values. -/
theorem solve_never_signals_divergence (f : SnapFunction ℝ) (y0 : State ℝ)
    (ts te d : ℝ) (method : String) :
    ((solve f y0 ts te d method).2).length = ((solve f y0 ts te d method).1).length := by
  simp [solve, solveLoop_length]

/-- Claim C10: the i-th recorded trajectory state equals the state as it was
immediately before the i-th step — the initial state with the first `i` steps
applied — for either method; `states[i] = y` snapshots the values, so no
later step of the run alters an already-recorded entry, and the caller's
initial state buffer is copied by `np.array(y0, dtype=float)` and never
written. -/
theorem solve_recorded_states_immutable (f : SnapFunction ℝ) (y0 : State ℝ)
    (ts te d : ℝ) (method : String) (i : ℕ) :
    ((solve f y0 ts te d method).2[i]? =
      if i < arangeLen ts te d then
        some (((t_values ts te d).take i).foldl (stepFunc f method d) y0)
      else none) ∧
    solve_y0_after y0 = y0 := by
  constructor
  · rw [show (solve f y0 ts te d method).2 =
      solveLoop (stepFunc f method d) y0 (t_values ts te d) from rfl,
      solveLoop_getElem?, t_values_length]
  · rfl

theorem pyIndex_coe (k : Fin 4) : pyIndex ((k : ℕ) : ℤ) = some k := by
  fin_cases k <;> rfl

theorem pyIndex_eq_none_iff (i : ℤ) : pyIndex i = none ↔ i < -4 ∨ 4 ≤ i := by
  by_cases h1 : 0 ≤ i ∧ i < 4
  · simp only [pyIndex, dif_pos h1]
    constructor
    · intro h
      exact absurd h (by simp)
    · intro h
      omega
  · by_cases h2 : -4 ≤ i ∧ i < 0
    · simp only [pyIndex, dif_neg h1, dif_pos h2]
      constructor
      · intro h
        exact absurd h (by simp)
      · intro h
        omega
    · simp only [pyIndex, dif_neg h1, dif_neg h2]
      constructor
      · intro _
        omega
      · intro _
        trivial

theorem pyIndex_wrap (i : ℤ) (h1 : -4 ≤ i) (h2 : i < 0) :
    pyIndex i = pyIndex (i + 4) := by
  unfold pyIndex
  rw [dif_neg (by omega), dif_pos ⟨h1, h2⟩, dif_pos (by omega)]

theorem sectionScan_short {α : Type} [LinearOrderedField α] (k : Fin 4)
    (c dir : α) (states : List (State α)) (h : states.length < 2) :
    sectionScan k c dir states = [] := by
  cases states with
  | nil => rfl
  | cons a tl =>
    cases tl with
    | nil => rfl
    | cons b tl2 =>
      simp only [List.length_cons] at h
      omega

theorem sectionScan_pair (s1 s2 : State ℚ) (k : Fin 4) (c dir : ℚ)
    (h : (s1 k - c) * (s2 k - c) < 0 ∧ dir * (s2 k - s1 k) > 0) :
    sectionScan k c dir [s1, s2] = [crossingPoint s1 s2 k c] := by
  simp [sectionScan, h.1, h.2]

theorem poincare_eq_scan {α : Type} [LinearOrderedField α]
    (states : List (State α)) (k : Fin 4) (c dir : α) :
    poincare_section states ((k : ℕ) : ℤ) c dir =
      some (sectionScan k c dir states) := by
  rw [poincare_section, pyIndex_coe]
  by_cases h : states.length < 2
  · rw [if_pos h, sectionScan_short k c dir states h]
  · rw [if_neg h]
    rfl

theorem poincare_section_pair (s1 s2 : State ℚ) (idx : ℤ) (k : Fin 4)
    (c dir : ℚ) (hk : pyIndex idx = some k)
    (h : (s1 k - c) * (s2 k - c) < 0 ∧ dir * (s2 k - s1 k) > 0) :
    poincare_section [s1, s2] idx c dir = some [crossingPoint s1 s2 k c] := by
  rw [poincare_section, if_neg (by simp), hk, Option.map_some',
    sectionScan_pair s1 s2 k c dir h]

/-- Claim C5: for every trajectory and hyperplane index `k ∈ {0,1,2,3}`
with threshold `c`, section extraction returns, in trajectory order, exactly
one point for each consecutive pair `(s1, s2)` that strictly straddles the
threshold (`(s1[k] − c) * (s2[k] − c) < 0`, an exact hit never counts) in the
requested direction (increasing `s1[k] < s2[k]` for direction 1, decreasing
for direction -1), each point `s1 + t * (s2 − s1)` with
`t = (c − s1[k]) / (s2[k] − s1[k])` applied to all 4 components; a straddling
pair in the other direction contributes nothing, the result has at most
`N − 1` points, and on the two-state trajectory `(0,0,-1,0), (0,0,1,0)` with
index 2, threshold 0, increasing, the result is exactly one point
`(0,0,0,0)`. -/
theorem poincare_section_crossings (states : List (State ℚ)) (k : Fin 4)
    (c : ℚ) :
    (poincare_section states ((k : ℕ) : ℤ) c 1 =
      some ((states.zip states.tail).filterMap fun p =>
        if (p.1 k - c) * (p.2 k - c) < 0 ∧ p.1 k < p.2 k then
          some (fun i => p.1 i + (c - p.1 k) / (p.2 k - p.1 k) * (p.2 i - p.1 i))
        else none)) ∧
    (poincare_section states ((k : ℕ) : ℤ) c (-1) =
      some ((states.zip states.tail).filterMap fun p =>
        if (p.1 k - c) * (p.2 k - c) < 0 ∧ p.2 k < p.1 k then
          some (fun i => p.1 i + (c - p.1 k) / (p.2 k - p.1 k) * (p.2 i - p.1 i))
        else none)) ∧
    (∀ dir : ℚ,
      poincare_section states ((k : ℕ) : ℤ) c dir =
        some (sectionScan k c dir states) ∧
      (sectionScan k c dir states).length ≤ states.length - 1) ∧
    poincare_section [![0, 0, -1, 0], ![0, 0, 1, 0]] 2 (0 : ℚ) 1 =
      some [![0, 0, 0, 0]] := by
  refine ⟨?_, ?_, ?_, ?_⟩
  · rw [poincare_eq_scan, sectionScan]
    congr 1
    apply List.filterMap_congr
    intro p hp
    simp only [one_mul, gt_iff_lt, sub_pos]
    rfl
  · rw [poincare_eq_scan, sectionScan]
    congr 1
    apply List.filterMap_congr
    intro p hp
    simp only [neg_mul, one_mul, gt_iff_lt, neg_pos, sub_neg]
    rfl
  · intro dir
    refine ⟨poincare_eq_scan states k c dir, ?_⟩
    refine le_trans (List.length_filterMap_le _ _) ?_
    rw [List.length_zip, List.length_tail]
    exact min_le_right _ _
  · have hcond : ((![0, 0, -1, 0] : State ℚ) 2 - 0) * ((![0, 0, 1, 0] : State ℚ) 2 - 0) < 0 ∧
        (1 : ℚ) * ((![0, 0, 1, 0] : State ℚ) 2 - (![0, 0, -1, 0] : State ℚ) 2) > 0 := by
      norm_num [Matrix.cons_val_two, Matrix.tail_cons, Matrix.head_cons]
    rw [poincare_section_pair (![0, 0, -1, 0]) (![0, 0, 1, 0]) 2 2 0 1 (by decide) hcond]
    have hpt : crossingPoint (![0, 0, -1, 0] : State ℚ) (![0, 0, 1, 0]) 2 0 =
        ![0, 0, 0, 0] := by
      funext i
      fin_cases i <;>
        simp [crossingPoint, Matrix.cons_val_zero, Matrix.cons_val_one,
          Matrix.cons_val_two, Matrix.cons_val_three, Matrix.head_cons,
          Matrix.tail_cons]
    rw [hpt]

/-- Claim C8 fails as stated: a negative hyperplane coordinate index does not
fail — Python wraps it. Extraction at index `-1` (which addresses component
3) on the two-state trajectory `(0,0,0,-1), (0,0,0,1)` succeeds and returns
the interpolated point `(0,0,0,0)` instead of raising an error. -/
theorem poincare_negative_index_returns_points :
    poincare_section [![0, 0, 0, -1], ![0, 0, 0, 1]] (-1) (0 : ℚ) 1 =
      some [![0, 0, 0, 0]] := by
  have hcond : ((![0, 0, 0, -1] : State ℚ) 3 - 0) * ((![0, 0, 0, 1] : State ℚ) 3 - 0) < 0 ∧
      (1 : ℚ) * ((![0, 0, 0, 1] : State ℚ) 3 - (![0, 0, 0, -1] : State ℚ) 3) > 0 := by
    norm_num [Matrix.cons_val_three, Matrix.tail_cons, Matrix.head_cons]
  rw [poincare_section_pair (![0, 0, 0, -1]) (![0, 0, 0, 1]) (-1) 3 0 1 (by decide) hcond]
  have hpt : crossingPoint (![0, 0, 0, -1] : State ℚ) (![0, 0, 0, 1]) 3 0 =
      ![0, 0, 0, 0] := by
    funext i
    fin_cases i <;>
      simp [crossingPoint, Matrix.cons_val_zero, Matrix.cons_val_one,
        Matrix.cons_val_two, Matrix.cons_val_three, Matrix.head_cons,
        Matrix.tail_cons]
  rw [hpt]

/-- Claim C8 (amended): with at least two trajectory states, section
extraction fails iff the coordinate index lies outside `-4..3` — an index
`≥ 4` or `< -4` raises an (uncaught numpy IndexError, not a designed
InvalidParameter) error, while a negative index in `-4..-1` is accepted by
Python index wrapping and silently addresses component `index + 4`; with
fewer than two states no index ever fails and no points are returned. -/
theorem poincare_section_index_validation (states : List (State ℚ)) (idx : ℤ)
    (c dir : ℚ) :
    (2 ≤ states.length →
      (poincare_section states idx c dir = none ↔ idx < -4 ∨ 4 ≤ idx)) ∧
    (-4 ≤ idx → idx < 0 →
      poincare_section states idx c dir = poincare_section states (idx + 4) c dir) ∧
    (states.length < 2 → poincare_section states idx c dir = some []) := by
  refine ⟨?_, ?_, ?_⟩
  · intro h2
    rw [poincare_section, if_neg (not_lt.mpr h2), Option.map_eq_none',
      pyIndex_eq_none_iff]
  · intro hge hlt
    rw [poincare_section, poincare_section, pyIndex_wrap idx hge hlt]
  · intro h
    rw [poincare_section, if_pos h]

theorem poincare_section_index_validation_witness :
    (poincare_section [![0, 0, 0, -1], ![0, 0, 0, 1]] 5 (0 : ℚ) 1 = none) ∧
    (poincare_section [![0, 0, 0, -1], ![0, 0, 0, 1]] (-1) (0 : ℚ) 1 =
      poincare_section [![0, 0, 0, -1], ![0, 0, 0, 1]] (-1 + 4) (0 : ℚ) 1) ∧
    (poincare_section ([] : List (State ℚ)) 9 (0 : ℚ) 1 = some []) :=
  ⟨((poincare_section_index_validation [![0, 0, 0, -1], ![0, 0, 0, 1]] 5 0 1).1
      (by decide)).mpr (Or.inr (by decide)),
   (poincare_section_index_validation [![0, 0, 0, -1], ![0, 0, 0, 1]] (-1) 0 1).2.1
      (by decide) (by decide),
   (poincare_section_index_validation [] 9 0 1).2.2 (by decide)⟩

theorem solve_trajectory_shape_witness :
    (0 : ℝ) < 1 ∧
    ((solve (fun _ _ _ _ _ => (0 : ℝ)) ![0, 0, 0, 0] 0 1 1 "rk4").1.length =
      ⌈((1 : ℝ) - 0) / 1⌉₊) :=
  ⟨zero_lt_one,
   (solve_trajectory_shape (fun _ _ _ _ _ => (0 : ℝ)) ![0, 0, 0, 0] 0 1 1 "rk4"
      zero_lt_one zero_lt_one).1⟩

end Chaos4
